import Mathlib

/-!
Verification development for the stealth-grid-cli terminal client.

The repository contains several overlapping snapshots of the same evolving
files.  This embedding follows the snapshot of pkg/model/model.go whose line
numbers the accompanying analysis refers to: the one in which the download
path opens a directory-chooser dialog and `downloadDataCmd` takes a
directory argument.  The export writer is the dialog-based snapshot of
pkg/export/export.go; the gateway helpers come from pkg/graphql/graphql.go.

Modelling conventions:
* Go functions that can panic (out-of-range indexing, failed type
  assertions) are embedded as `Option`-valued functions, `none` marking the
  panic.
* External collaborators from the Go standard library and third-party
  widgets are threaded through an explicit environment `Env`:
  `unicode.IsDigit` is an abstract `Char → Bool` oracle, `time.Parse`
  (RFC3339) is an abstract `String → Option Int` oracle returning
  nanoseconds relative to the timestamp type's zero value — RFC3339 admits
  year-0000 timestamps strictly before the zero value, hence negative keys
  (a failed parse is `none`, which the caller turns into the zero value,
  i.e. key 0) — the two
  `time.Now()` calls are the integers `now1`/`now2`, and the directory
  dialog's outcome is `dialogDir` (`none` = error, `some ""` = empty
  choice).
* `tea.Cmd` values are represented by the inductive `Cmd`; `tea.Batch`
  becomes a list, and a `nil` command becomes `[]`.
* The bubbles list/table widgets are cursored sequences; their `up`/`down`
  navigation is clamped cursor movement, which is all the state machine
  observes of them.  Spinner state carries no claim-relevant data and is
  omitted.
* Go's `int64` wrap-around in the `time.Duration` arithmetic is modelled
  exactly by `wrap64`.
-/

/-- A list item: mirrors `model.Item` (TitleText, DescriptionText, ID). -/
structure Item where
  TitleText : String
  DescriptionText : String
  ID : String
deriving DecidableEq

/-- Application states: mirrors the `State` enumeration in model.go. -/
inductive State where
  | SelectGame
  | EnterStartDays
  | EnterEndDays
  | ShowTable
  | SelectSeries
  | Downloading
deriving DecidableEq

/-- The claim-relevant state of the bubbles list widget: its items and the
highlighted cursor. -/
structure ListWidget where
  items : List Item
  cursor : Nat
deriving DecidableEq

/-- The claim-relevant state of the bubbles table widget: its rows
(`table.Row` is a string slice) and the selected-row cursor. -/
structure TableWidget where
  rows : List (List String)
  cursor : Nat
deriving DecidableEq

/-- The application model: mirrors `model.Model` field for field (the
spinner holds no claim-relevant state and is omitted). -/
structure Model where
  ListModel : ListWidget
  Table : TableWidget
  ErrMsg : String
  CurrentState : State
  Loading : Bool
  SelectedID : String
  Data : List (List String)
  StartDays : String
  EndDays : String
deriving DecidableEq

/-- Commands dispatched by the state machine (`tea.Cmd` values produced in
model.go); a `tea.Batch` is a list of these. -/
inductive Cmd where
  | quit
  | clearScreen
  | spinnerTick
  | fetchData (titleID : String) (startTime endTime : Int)
  | downloadData (seriesID directory : String)
deriving DecidableEq

/-- Dynamic JSON-like values traversed by `handleDataMsg`
(`map[string]interface{}` / `[]interface{}` / `string`); `other` stands for
values of any further dynamic type, which every type assertion in the
traversal rejects. -/
inductive GVal where
  | str (s : String)
  | arr (elems : List GVal)
  | obj (fields : List (String × GVal))
  | other

/-- Messages delivered to `Model.Update` (`tea.Msg`). -/
inductive Msg where
  | key (k : String)
  | gdata (fields : List (String × GVal))
  | strMsg (s : String)
  | spinnerTick

/-- The environment of external collaborators (see the module docstring). -/
structure Env where
  isDig : Char → Bool
  parse : String → Option Int
  now1 : Int
  now2 : Int
  dialogDir : Option String

/-- Go map lookup `fields[k]` on the association-list representation. -/
def glookup (fields : List (String × GVal)) (k : String) : Option GVal :=
  match fields with
  | [] => none
  | (k2, v) :: rest => if k2 = k then some v else glookup rest k

/-- Type assertion `.(map[string]interface{})`. -/
def asObj : GVal → Option (List (String × GVal))
  | GVal.obj f => some f
  | _ => none

/-- Type assertion `.([]interface{})`. -/
def asArr : GVal → Option (List GVal)
  | GVal.arr xs => some xs
  | _ => none

/-- Type assertion `.(string)`. -/
def asStr : GVal → Option String
  | GVal.str s => some s
  | _ => none

/-- `m[k].(map[string]interface{})` with the two-valued form: fails when the
key is absent or the value is not a map. -/
def glookupObj (fields : List (String × GVal)) (k : String) : Option (List (String × GVal)) :=
  (glookup fields k).bind asObj

/-- Numeric value of a digit string (the accumulation loop of
`strconv.ParseInt` in base 10). -/
def digitsVal (ds : List Char) : Nat :=
  ds.foldl (fun a c => a * 10 + (c.toNat - 48)) 0

/-- Model of `strconv.Atoi` with the error discarded, as in
`startDays, _ := strconv.Atoi(...)`: empty or syntactically invalid input
yields 0 (the zero value), a syntactically valid input yields its value
clamped to the int64 range (`strconv.ErrRange` also leaves the clamped
value in the first return). -/
def goAtoi (s : String) : Int :=
  match s.data with
  | [] => 0
  | c :: rest =>
    let p := if c = '-' then (true, rest) else if c = '+' then (false, rest) else (false, c :: rest)
    if p.2 = [] ∨ ¬ p.2.all Char.isDigit then 0
    else
      let v : Int := (digitsVal p.2 : Nat)
      if p.1 then (if -v < -(2 ^ 63) then -(2 ^ 63) else -v)
      else (if v > 2 ^ 63 - 1 then 2 ^ 63 - 1 else v)

/-- Two's-complement wrap-around of Go `int64` arithmetic. -/
def wrap64 (x : Int) : Int :=
  (x + 2 ^ 63) % 2 ^ 64 - 2 ^ 63

/-- Nanoseconds of `time.Hour`. -/
def hourNs : Int := 3600000000000

/-- `time.Duration(n) * 24 * time.Hour`: two int64 multiplications, each
wrapping. -/
def durDays (n : Int) : Int :=
  wrap64 (wrap64 (wrap64 n * 24) * hourNs)

/-- Go string slicing `s[:len(s)-1]` as used on the all-digit day buffers
(byte positions and character positions coincide on ASCII content); on an
empty string the caller skips the slice, and `dropLast` is the identity
there as well. -/
def dropLastStr (s : String) : String :=
  String.mk s.data.dropLast

/-- `edge.(map[string]interface{})["node"].(map[string]interface{})`. -/
def edgeNode (edge : GVal) : Option (List (String × GVal)) :=
  (asObj edge).bind (fun e => (glookup e "node").bind asObj)

/-- The participant list of an edge:
`node["teams"].([]interface{})` reached through `edgeNode`. -/
def edgeTeams (edge : GVal) : Option (List GVal) :=
  (edgeNode edge).bind (fun node => (glookup node "teams").bind asArr)

/-- Whether an edge carries at least two participants (the skip test
`len(teams) < 2` negated). -/
def edgeHasTwoTeams (edge : GVal) : Bool :=
  match edgeTeams edge with
  | some ts => decide (2 ≤ ts.length)
  | none => false

/-- `teams[i].(map[string]interface{})["baseInfo"].(map[string]interface{})["name"].(string)`. -/
def teamName (t : GVal) : Option String :=
  ((asObj t).bind (fun o => (glookup o "baseInfo").bind asObj)).bind
    (fun b => (glookup b "name").bind asStr)

/-- One iteration of the edge loop in `handleDataMsg`: `none` is a panic of
a failed type assertion, `some none` is the `continue` for fewer than two
teams, and `some (some row)` is the appended five-column row.  The
`tournament` assertion precedes the team-count test, exactly as in the
source. -/
def rowOfEdge (edge : GVal) : Option (Option (List String)) :=
  match edgeNode edge with
  | none => none
  | some node =>
    match (glookup node "tournament").bind asObj with
    | none => none
    | some tournament =>
      match (glookup node "teams").bind asArr with
      | none => none
      | some teams =>
        if teams.length < 2 then some none
        else
          match teams with
          | t1 :: t2 :: _ =>
            match teamName t1, teamName t2, (glookup node "startTimeScheduled").bind asStr,
                  (glookup node "id").bind asStr, (glookup tournament "name").bind asStr with
            | some n1, some n2, some st, some sid, some tn => some (some [st, sid, tn, n1, n2])
            | _, _, _, _, _ => none
          | _ => some none

/-- The edge loop: rows in edge order, a panic anywhere aborting the whole
function. -/
def buildRows : List GVal → Option (List (List String))
  | [] => some []
  | e :: es =>
    match rowOfEdge e with
    | none => none
    | some none => buildRows es
    | some (some r) => (buildRows es).map (fun rs => r :: rs)

/-- The comparison key of the row sort:
`timeI, _ := time.Parse(time.RFC3339, rows[i][0])` with a failed parse
leaving the zero value (key 0). -/
def sortKey (env : Env) (r : List String) : Int :=
  match env.parse (r.getD 0 "") with
  | some t => t
  | none => 0

/-- Stable insertion of a row into an already sorted prefix; a new row is
placed before the first strictly later row, after all equal ones, which is
exactly the order `sort.SliceStable` with the strict `Before` comparator
produces. -/
def insertRow (key : List String → Int) (x : List String) : List (List String) → List (List String)
  | [] => [x]
  | y :: ys => if key x < key y then x :: y :: ys else y :: insertRow key x ys

/-- `sort.SliceStable(rows, less)` with `less i j = timeI.Before(timeJ)`:
a stable sort's output is uniquely determined by the comparator, so stable
insertion sort is an exact model. -/
def sortRows (key : List String → Int) (l : List (List String)) : List (List String) :=
  l.foldl (fun acc x => insertRow key x acc) []

/-- `handleDataMsg`: validates the nested result shape
(data → allSeries → edges, each miss a distinct error), builds rows from
the edges, sorts them by parsed start time and installs the new table
(cursor 0, as `table.New` starts) and data. -/
def handleDataMsg (env : Env) (m : Model) (g : List (String × GVal)) : Option (Model × List Cmd) :=
  let m1 := { m with ErrMsg := "", Loading := false }
  match glookupObj g "data" with
  | none => some ({ m1 with ErrMsg := "No data found" }, [])
  | some data =>
    match glookupObj data "allSeries" with
    | none => some ({ m1 with ErrMsg := "No series found" }, [])
    | some series =>
      match (glookup series "edges").bind asArr with
      | none => some ({ m1 with ErrMsg := "No edges found" }, [])
      | some edges =>
        match buildRows edges with
        | none => none
        | some rows =>
          let sorted := sortRows (sortKey env) rows
          some ({ m1 with Table := { rows := sorted, cursor := 0 }, Data := sorted }, [])

/-- `handleBackspaceKey`: drop the last character of the active day buffer
when it is non-empty; otherwise no-op. -/
def handleBackspaceKey (m : Model) : Option (Model × List Cmd) :=
  if m.CurrentState = State.EnterStartDays ∧ 0 < m.StartDays.length then
    some ({ m with StartDays := dropLastStr m.StartDays }, [])
  else if m.CurrentState = State.EnterEndDays ∧ 0 < m.EndDays.length then
    some ({ m with EndDays := dropLastStr m.EndDays }, [])
  else some (m, [])

/-- `handleDefaultKey`: `[]rune(key)[0]` panics on an empty key string;
a key whose leading rune is not a digit (per `unicode.IsDigit`) is a no-op;
otherwise the whole key string is appended to the active day buffer. -/
def handleDefaultKey (env : Env) (m : Model) (key : String) : Option (Model × List Cmd) :=
  match key.data with
  | [] => none
  | c :: _ =>
    if ¬ env.isDig c then some (m, [])
    else if m.CurrentState = State.EnterStartDays then
      some ({ m with StartDays := m.StartDays ++ key }, [])
    else if m.CurrentState = State.EnterEndDays then
      some ({ m with EndDays := m.EndDays ++ key }, [])
    else some (m, [])

/-- `handleEnterKey`: the confirm transition of every state.  `none` is a
panic: `SelectedItem().(Item)` on an empty list in SelectGame, and the
unchecked `m.Table.SelectedRow()[1]` in ShowTable. -/
def handleEnterKey (env : Env) (m : Model) : Option (Model × List Cmd) :=
  match m.CurrentState with
  | State.SelectGame =>
    match m.ListModel.items.get? m.ListModel.cursor with
    | none => none
    | some it => some ({ m with SelectedID := it.ID, CurrentState := State.EnterStartDays }, [])
  | State.EnterStartDays => some ({ m with CurrentState := State.EnterEndDays }, [])
  | State.EnterEndDays =>
    let startDays := goAtoi m.StartDays
    let endDays := goAtoi m.EndDays
    let startTime := env.now1 + durDays (-startDays)
    let endTime := env.now2 + durDays endDays
    some ({ m with Loading := true, CurrentState := State.ShowTable },
      [Cmd.clearScreen, Cmd.fetchData m.SelectedID startTime endTime, Cmd.spinnerTick])
  | State.ShowTable =>
    match m.Table.rows.get? m.Table.cursor with
    | none => none
    | some selectedRow =>
      match selectedRow.get? 1 with
      | none => none
      | some sid =>
        let m2 := { m with CurrentState := State.Downloading, SelectedID := sid, Loading := true }
        match env.dialogDir with
        | none => some ({ m2 with Loading := false, CurrentState := State.ShowTable }, [Cmd.clearScreen])
        | some dir =>
          if dir = "" then
            some ({ m2 with Loading := false, CurrentState := State.ShowTable }, [Cmd.clearScreen])
          else
            some (m2, [Cmd.clearScreen, Cmd.downloadData sid dir, Cmd.spinnerTick])
  | State.Downloading =>
    some ({ m with Loading := false, CurrentState := State.ShowTable }, [Cmd.clearScreen])
  | State.SelectSeries =>
    let m2 := { m with Loading := true }
    match env.dialogDir with
    | none => some ({ m2 with Loading := false, CurrentState := State.ShowTable }, [Cmd.clearScreen])
    | some dir =>
      if dir = "" then
        some ({ m2 with Loading := false, CurrentState := State.ShowTable }, [Cmd.clearScreen])
      else
        some (m2, [Cmd.clearScreen, Cmd.downloadData m.SelectedID dir, Cmd.spinnerTick])

/-- `up`/`down` navigation of the bubbles table: clamped cursor movement
(the widget returns no command for it). -/
def tableMove (k : String) (t : TableWidget) : TableWidget :=
  if k = "up" then { t with cursor := t.cursor - 1 }
  else { t with cursor := min (t.cursor + 1) (t.rows.length - 1) }

/-- `up`/`down` navigation of the bubbles list: clamped cursor movement. -/
def listMove (k : String) (l : ListWidget) : ListWidget :=
  if k = "up" then { l with cursor := l.cursor - 1 }
  else { l with cursor := min (l.cursor + 1) (l.items.length - 1) }

/-- `handleKeyMsg`: the key dispatcher.  In the `"e"` branch the export
writer runs synchronously on `m.Data` when the table is shown (that side
effect is the subject of `ExportData` below) and the model is returned
unchanged with a clear-screen command. -/
def handleKeyMsg (env : Env) (m : Model) (k : String) : Option (Model × List Cmd) :=
  if k = "q" ∨ k = "ctrl+c" then some (m, [Cmd.quit])
  else if k = "enter" then handleEnterKey env m
  else if k = "e" then some (m, [Cmd.clearScreen])
  else if k = "backspace" then handleBackspaceKey m
  else if k = "up" ∨ k = "down" then
    if m.CurrentState = State.SelectGame then some ({ m with ListModel := listMove k m.ListModel }, [])
    else if m.CurrentState = State.ShowTable then some ({ m with Table := tableMove k m.Table }, [])
    else some (m, [])
  else handleDefaultKey env m k

/-- `Model.Update`.  Key, data and string messages return from inside the
switch; a spinner tick reaches the trailing widget dispatch, which does not
alter any claim-relevant state for a tick message. -/
def Update (env : Env) (m : Model) : Msg → Option (Model × List Cmd)
  | Msg.key k => handleKeyMsg env m k
  | Msg.gdata g => handleDataMsg env m g
  | Msg.strMsg s =>
    if s = "Download complete" then
      some ({ m with CurrentState := State.ShowTable, Loading := false },
        [Cmd.clearScreen, Cmd.spinnerTick])
    else some ({ m with ErrMsg := s }, [])
  | Msg.spinnerTick => some (m, [])

/-- Iterated key delivery: each keystroke through `handleKeyMsg`, a panic
anywhere aborting the run. -/
def runKeys (env : Env) (m : Model) : List String → Option Model
  | [] => some m
  | k :: ks =>
    match handleKeyMsg env m k with
    | none => none
    | some (m2, _) => runKeys env m2 ks

/-- The reference buffer evolution of the day-entry states: a digit
keystroke appends, backspace drops the last character (no-op on empty). -/
def bufStep (b : String) (k : String) : String :=
  if k = "backspace" then dropLastStr b else b ++ k

/-- `downloadDataCmd`'s delivered message: `graphql.DownloadJSON`'s return
value (an error or success) is discarded and the literal completion string
is always delivered. -/
def downloadDataCmdMsg (_result : Except String Unit) : Msg :=
  Msg.strMsg "Download complete"

/-- `fetchDataCmd`'s delivered message: a successful fetch delivers the raw
map, a failed one delivers `err.Error()` as a string message. -/
def fetchDataCmdMsg (result : Except String (List (String × GVal))) : Msg :=
  match result with
  | Except.ok g => Msg.gdata g
  | Except.error e => Msg.strMsg e

/-- The CSV header record written by `export.ExportData`. -/
def csvHeaders : List String :=
  ["Start Time", "Serie ID", "Tournament", "Blue Team", "Red Team"]

/-- One CSV record: `[]string{row[0], row[1], row[2], row[3], row[4]}`,
a panic (`none`) when the row has fewer than five cells. -/
def recordOfRow (r : List String) : Option (List String) :=
  match r.get? 0, r.get? 1, r.get? 2, r.get? 3, r.get? 4 with
  | some a, some b, some c, some d, some e => some [a, b, c, d, e]
  | _, _, _, _, _ => none

/-- The record loop of `export.ExportData`, in input order. -/
def writeRecords : List (List String) → Option (List (List String))
  | [] => some []
  | r :: rs =>
    match recordOfRow r with
    | none => none
    | some rec => (writeRecords rs).map (fun out => rec :: out)

/-- `export.ExportData` as the sequence of CSV records it writes: the
header followed by one record per input row (file-system failures are
outside the model; a short row is a panic). -/
def ExportData (data : List (List String)) : Option (List (List String)) :=
  (writeRecords data).map (fun recs => csvHeaders :: recs)

/-- One entry of the `files` array decoded by `graphql.FetchGameList`. -/
structure GameFile where
  id : String
  fileName : String
deriving DecidableEq

/-- Helper for `goExt`: walks the reversed character list of the path,
accumulating the characters seen after (i.e. textually following) the final
dot; stops empty at a path separator. -/
def extFromRev (acc : List Char) : List Char → String
  | [] => ""
  | c :: rest =>
    if c = '/' then ""
    else if c = '.' then String.mk ('.' :: acc)
    else extFromRev (c :: acc) rest

/-- `filepath.Ext`: the suffix beginning at the final dot in the final path
element, empty when there is none. -/
def goExt (s : String) : String :=
  extFromRev [] s.data.reverse

/-- The `.rofl` counting loop of `graphql.FetchGameList`. -/
def countRofl (files : List GameFile) : Nat :=
  files.foldl (fun n f => if goExt f.fileName = ".rofl" then n + 1 else n) 0

/-- The `events-grid` manifest detection loop of `graphql.FetchGameList`. -/
def hasJSONFile (files : List GameFile) : Bool :=
  files.foldl (fun b f => if f.id = "events-grid" then true else b) false

/-- Modelled from the spec: the compressed-archive entry of the
download-option list ("archive option present only if a JSON/archive
manifest entry exists"), carrying the archive sentinel as its id. -/
def archiveOption : Item :=
  { TitleText := "Download Archive", DescriptionText := "Full series archive", ID := "archive" }

/-- Modelled from the spec: the per-replay entry of the download-option
list, "one Download Game N option per detected replay file, 1-indexed". -/
def gameOption (i : Nat) : Item :=
  { TitleText := "Download Game " ++ toString (i + 1),
    DescriptionText := "Replay file " ++ toString (i + 1),
    ID := toString (i + 1) }

/-- Modelled from the spec: the download-option list built from the
`list_files` result `(replay_file_count, has_archive_manifest)` — the
archive option exactly when the manifest entry exists, then one
1-indexed game option per detected replay file. -/
def downloadOptions (replayCount : Nat) (hasArchive : Bool) : List Item :=
  (if hasArchive then [archiveOption] else []) ++ (List.range replayCount).map gameOption

/-- Modelled from the spec: the screen reached by the confirm transition of
ShowTable (loaded) in the download-option flow. -/
inductive SpecScreen where
  | showTableLoaded
  | selectDownloadOption
deriving DecidableEq

/-- Modelled from the spec: the outcome of that confirm transition — the
recorded series id of the selected row and the populated option list. -/
structure SpecConfirm where
  selectedSeriesId : String
  options : List Item
deriving DecidableEq

/-- Modelled from the spec: the confirm handler of ShowTable (loaded) in
the download-option flow ("record selected row's series id; dispatch async
list-downloadable-files request; on its result populate download options;
advance to SelectDownloadOption").  This caller of `FetchGameList` is not
among the source snapshots under src (only the gateway side is); the
`files` argument stands for the delivered result of the dispatched
list-files request, and reading column 1 of the selected row follows the
source's ShowTable confirm handler. -/
def confirmShowTableLoaded (rows : List (List String)) (cursor : Nat) (files : List GameFile) :
    Option (SpecConfirm × SpecScreen) :=
  match rows.get? cursor with
  | none => none
  | some row =>
    match row.get? 1 with
    | none => none
    | some sid =>
      some ({ selectedSeriesId := sid,
              options := downloadOptions (countRofl files) (hasJSONFile files) },
            SpecScreen.selectDownloadOption)

/-- A fully reducible parse oracle for witness environments: a non-empty
all-digit string is a timestamp at its decimal value in nanoseconds,
anything else fails to parse. -/
def parseDigits (s : String) : Option Int :=
  if s.data ≠ [] ∧ s.data.all Char.isDigit then some ((digitsVal s.data : Nat) : Int) else none

/-- A concrete environment for witnesses: ASCII digits, decimal-literal
timestamps, both clocks at 0, dialog errored. -/
def env0 : Env :=
  { isDig := Char.isDigit, parse := parseDigits, now1 := 0, now2 := 0, dialogDir := none }

/-- A concrete model in Downloading with the loading flag set. -/
def mDownloading : Model :=
  { ListModel := { items := [], cursor := 0 }, Table := { rows := [], cursor := 0 },
    ErrMsg := "", CurrentState := State.Downloading, Loading := true, SelectedID := "s1",
    Data := [], StartDays := "", EndDays := "" }

/-- A concrete model in ShowTable with the loading flag set (fetch in
flight). -/
def mFetching : Model :=
  { ListModel := { items := [], cursor := 0 }, Table := { rows := [], cursor := 0 },
    ErrMsg := "", CurrentState := State.ShowTable, Loading := true, SelectedID := "3",
    Data := [], StartDays := "10", EndDays := "1" }

/-- A concrete model in EnterStartDays with empty buffers. -/
def mStartEntry : Model :=
  { ListModel := { items := [], cursor := 0 }, Table := { rows := [], cursor := 0 },
    ErrMsg := "", CurrentState := State.EnterStartDays, Loading := false, SelectedID := "3",
    Data := [], StartDays := "", EndDays := "" }

/-- Erase the loading flag of a handler result, for comparing runs that
differ only in the input's loading flag. -/
def scrubLoading (r : Option (Model × List Cmd)) : Option (Model × List Cmd) :=
  r.map (fun p => ({ p.1 with Loading := false }, p.2))

/-- Whether a command is the asynchronous series fetch. -/
def isFetchCmd : Cmd → Bool
  | Cmd.fetchData _ _ _ => true
  | _ => false

/-- A concrete model in EnterEndDays with the scenario day inputs 10/1. -/
def mEndEntry : Model :=
  { ListModel := { items := [], cursor := 0 }, Table := { rows := [], cursor := 0 },
    ErrMsg := "", CurrentState := State.EnterEndDays, Loading := false, SelectedID := "3",
    Data := [], StartDays := "10", EndDays := "1" }

/-- A concrete loaded ShowTable model with an empty table. -/
def mShowEmpty : Model :=
  { ListModel := { items := [], cursor := 0 }, Table := { rows := [], cursor := 0 },
    ErrMsg := "", CurrentState := State.ShowTable, Loading := false, SelectedID := "3",
    Data := [], StartDays := "10", EndDays := "1" }

/-- A concrete loaded ShowTable model with one five-column row. -/
def mShowLoaded : Model :=
  { ListModel := { items := [], cursor := 0 },
    Table := { rows := [["2024-05-10T00:00:00Z", "s1", "Cup", "Alpha", "Beta"]], cursor := 0 },
    ErrMsg := "", CurrentState := State.ShowTable, Loading := false, SelectedID := "3",
    Data := [["2024-05-10T00:00:00Z", "s1", "Cup", "Alpha", "Beta"]],
    StartDays := "10", EndDays := "1" }

/-- A well-formed edge with two participants (start-time string "5"). -/
def edgeTwoTeams : GVal :=
  GVal.obj [("node", GVal.obj
    [("id", GVal.str "sid2"),
     ("tournament", GVal.obj [("name", GVal.str "Cup")]),
     ("startTimeScheduled", GVal.str "5"),
     ("teams", GVal.arr
       [GVal.obj [("baseInfo", GVal.obj [("name", GVal.str "Alpha")])],
        GVal.obj [("baseInfo", GVal.obj [("name", GVal.str "Beta")])]])])]

/-- A well-formed edge with a single participant, to be skipped. -/
def edgeOneTeam : GVal :=
  GVal.obj [("node", GVal.obj
    [("id", GVal.str "sid1"),
     ("tournament", GVal.obj [("name", GVal.str "Cup")]),
     ("startTimeScheduled", GVal.str "9"),
     ("teams", GVal.arr [GVal.obj [("baseInfo", GVal.obj [("name", GVal.str "Solo")])]])])]

/-- A well-formed edge with two participants and an unparsable start time. -/
def edgeBadTime : GVal :=
  GVal.obj [("node", GVal.obj
    [("id", GVal.str "sid3"),
     ("tournament", GVal.obj [("name", GVal.str "Cup")]),
     ("startTimeScheduled", GVal.str "soon"),
     ("teams", GVal.arr
       [GVal.obj [("baseInfo", GVal.obj [("name", GVal.str "Gamma")])],
        GVal.obj [("baseInfo", GVal.obj [("name", GVal.str "Delta")])]])])]

/-- The edge list of the transformer witness: one skipped edge, two kept. -/
def edgesW : List GVal := [edgeTwoTeams, edgeOneTeam, edgeBadTime]

/-- The series object of the transformer witness. -/
def seriesW : List (String × GVal) := [("edges", GVal.arr edgesW)]

/-- The data object of the transformer witness. -/
def dataW : List (String × GVal) := [("allSeries", GVal.obj seriesW)]

/-- A complete gateway result for the transformer witness. -/
def gWitness : List (String × GVal) := [("data", GVal.obj dataW)]

/-- The list-files result of the download-option witness: an archive
manifest plus two replay files. -/
def wfiles : List GameFile :=
  [{ id := "events-grid", fileName := "events.json" },
   { id := "r1", fileName := "game1.rofl" },
   { id := "r2", fileName := "game2.rofl" }]

/-- A well-formed edge whose RFC3339 start time lies in year 0000, one leap
year before the timestamp type's zero value. -/
def edgeYearZero : GVal :=
  GVal.obj [("node", GVal.obj
    [("id", GVal.str "sid0"),
     ("tournament", GVal.obj [("name", GVal.str "Cup")]),
     ("startTimeScheduled", GVal.str "0000-01-01T00:00:00Z"),
     ("teams", GVal.arr
       [GVal.obj [("baseInfo", GVal.obj [("name", GVal.str "Epsilon")])],
        GVal.obj [("baseInfo", GVal.obj [("name", GVal.str "Zeta")])]])])]

/-- The edge list of the year-0000 counterexample: the unparsable-time edge
first in input order, the year-0000 edge second. -/
def edgesCex : List GVal := [edgeBadTime, edgeYearZero]

/-- A complete gateway result for the year-0000 counterexample. -/
def gCex : List (String × GVal) :=
  [("data", GVal.obj [("allSeries", GVal.obj [("edges", GVal.arr edgesCex)])])]

/-- An environment whose parse oracle renders the year-0000 timestamp as a
key strictly before the zero value (366 days of nanoseconds), as
`time.Parse(RFC3339)` does, and parses plain decimal strings as
non-negative keys. -/
def envNeg : Env :=
  { isDig := Char.isDigit,
    parse := fun s =>
      if s = "0000-01-01T00:00:00Z" then some (-31622400000000000) else parseDigits s,
    now1 := 0, now2 := 0, dialogDir := none }

theorem wrap64_eq_self (x : Int) (h1 : -(2 ^ 63) ≤ x) (h2 : x < 2 ^ 63) : wrap64 x = x := by
  unfold wrap64
  omega

theorem mem_insertRow (key : List String → Int) (x a : List String) :
    ∀ l, a ∈ insertRow key x l ↔ a = x ∨ a ∈ l := by
  intro l
  induction l with
  | nil => simp [insertRow]
  | cons y ys ih =>
    by_cases h : key x < key y
    · simp [insertRow, h]
    · simp [insertRow, h, ih]
      tauto

theorem length_insertRow (key : List String → Int) (x : List String) :
    ∀ l, (insertRow key x l).length = l.length + 1 := by
  intro l
  induction l with
  | nil => rfl
  | cons y ys ih =>
    by_cases h : key x < key y
    · simp [insertRow, h]
    · simp [insertRow, h, ih]

theorem pairwise_insertRow (key : List String → Int) (x : List String) :
    ∀ l, l.Pairwise (fun a b => key a ≤ key b) →
      (insertRow key x l).Pairwise (fun a b => key a ≤ key b) := by
  intro l
  induction l with
  | nil => intro _; simp [insertRow]
  | cons y ys ih =>
    intro hp
    rcases List.pairwise_cons.mp hp with ⟨hy, hys⟩
    by_cases h : key x < key y
    · rw [insertRow, if_pos h]
      refine List.pairwise_cons.mpr ⟨?_, hp⟩
      intro b hb
      rcases List.mem_cons.mp hb with hb | hb
      · exact hb ▸ le_of_lt h
      · exact le_trans (le_of_lt h) (hy b hb)
    · rw [insertRow, if_neg h]
      refine List.pairwise_cons.mpr ⟨?_, ih hys⟩
      intro b hb
      rcases (mem_insertRow key x b ys).mp hb with hb | hb
      · exact hb ▸ le_of_not_lt h
      · exact hy b hb

theorem foldl_insert_pairwise (key : List String → Int) :
    ∀ (l acc : List (List String)), acc.Pairwise (fun a b => key a ≤ key b) →
      (l.foldl (fun acc x => insertRow key x acc) acc).Pairwise (fun a b => key a ≤ key b) := by
  intro l
  induction l with
  | nil => intro acc h; exact h
  | cons x xs ih => intro acc h; exact ih _ (pairwise_insertRow key x acc h)

theorem foldl_insert_length (key : List String → Int) :
    ∀ (l acc : List (List String)),
      (l.foldl (fun acc x => insertRow key x acc) acc).length = acc.length + l.length := by
  intro l
  induction l with
  | nil => intro acc; rfl
  | cons x xs ih =>
    intro acc
    rw [List.foldl_cons, ih, length_insertRow]
    simp [List.length_cons]
    omega

theorem foldl_insert_mem (key : List String → Int) (a : List String) :
    ∀ (l acc : List (List String)),
      (a ∈ l.foldl (fun acc x => insertRow key x acc) acc ↔ a ∈ acc ∨ a ∈ l) := by
  intro l
  induction l with
  | nil => intro acc; simp
  | cons x xs ih =>
    intro acc
    rw [List.foldl_cons, ih, mem_insertRow]
    simp
    tauto

theorem sortRows_pairwise (key : List String → Int) (l : List (List String)) :
    (sortRows key l).Pairwise (fun a b => key a ≤ key b) :=
  foldl_insert_pairwise key l [] (List.Pairwise.nil)

theorem sortRows_length (key : List String → Int) (l : List (List String)) :
    (sortRows key l).length = l.length := by
  unfold sortRows
  rw [foldl_insert_length]
  simp

theorem mem_sortRows (key : List String → Int) (a : List String) (l : List (List String)) :
    a ∈ sortRows key l ↔ a ∈ l := by
  unfold sortRows
  rw [foldl_insert_mem]
  simp

theorem rowOfEdge_skip (e : GVal) (h : rowOfEdge e = some none) : edgeHasTwoTeams e = false := by
  unfold rowOfEdge at h
  split at h
  · exact absurd h (by simp)
  case _ node hn =>
    split at h
    · exact absurd h (by simp)
    case _ tournament ht =>
      split at h
      · exact absurd h (by simp)
      case _ teams hteams =>
        have hte : edgeTeams e = some teams := by
          unfold edgeTeams
          rw [hn, Option.some_bind, hteams]
        unfold edgeHasTwoTeams
        rw [hte]
        split at h
        case _ hlt => simp; omega
        case _ hge =>
          split at h
          · split at h <;> simp_all
          case _ hx =>
            cases teams with
            | nil => exact absurd (by simp) hge
            | cons a tail =>
              cases tail with
              | nil => exact absurd (by simp) hge
              | cons b tl => exact absurd rfl (hx a b tl)

theorem rowOfEdge_row (e : GVal) (r : List String) (h : rowOfEdge e = some (some r)) :
    edgeHasTwoTeams e = true ∧ r.length = 5 := by
  unfold rowOfEdge at h
  split at h
  · exact absurd h (by simp)
  case _ node hn =>
    split at h
    · exact absurd h (by simp)
    case _ tournament ht =>
      split at h
      · exact absurd h (by simp)
      case _ teams hteams =>
        have hte : edgeTeams e = some teams := by
          unfold edgeTeams
          rw [hn, Option.some_bind, hteams]
        unfold edgeHasTwoTeams
        rw [hte]
        split at h
        case _ hlt => exact absurd h (by simp)
        case _ hge =>
          split at h
          · split at h
            case _ n1 n2 st sid tn h1 h2 h3 h4 h5 =>
              refine ⟨by simp only [decide_eq_true_eq]; omega, ?_⟩
              have hr : r = [st, sid, tn, n1, n2] := by
                have := Option.some.inj h
                exact (Option.some.inj this).symm
              rw [hr]
              rfl
            case _ => exact absurd h (by simp)
          case _ hx => exact absurd h (by simp)

theorem buildRows_of_wf :
    ∀ edges : List GVal, (∀ e ∈ edges, (rowOfEdge e).isSome = true) →
      ∃ rows, buildRows edges = some rows ∧
        rows.length = edges.countP edgeHasTwoTeams ∧
        ∀ r ∈ rows, r.length = 5 := by
  intro edges
  induction edges with
  | nil => intro _; exact ⟨[], rfl, by simp, by simp⟩
  | cons e es ih =>
    intro hwf
    have he : (rowOfEdge e).isSome = true := hwf e (List.mem_cons_self e es)
    rcases ih (fun x hx => hwf x (List.mem_cons_of_mem e hx)) with ⟨rows, hb, hlen, hwid⟩
    match hre : rowOfEdge e with
    | none => rw [hre] at he; exact absurd he (by simp)
    | some none =>
      refine ⟨rows, ?_, ?_, hwid⟩
      · rw [buildRows, hre, hb]
      · rw [hlen, List.countP_cons_of_neg]
        simp [rowOfEdge_skip e hre]
    | some (some r) =>
      refine ⟨r :: rows, ?_, ?_, ?_⟩
      · rw [buildRows, hre, hb]
        rfl
      · rw [List.length_cons, hlen, List.countP_cons_of_pos]
        exact (rowOfEdge_row e r hre).1
      · intro x hx
        rcases List.mem_cons.mp hx with hx | hx
        · exact hx ▸ (rowOfEdge_row e r hre).2
        · exact hwid x hx

theorem handleDataMsg_success (env : Env) (m : Model) (g : List (String × GVal))
    (d s : List (String × GVal)) (edges : List GVal) (rows : List (List String))
    (h1 : glookupObj g "data" = some d) (h2 : glookupObj d "allSeries" = some s)
    (h3 : (glookup s "edges").bind asArr = some edges) (h4 : buildRows edges = some rows) :
    handleDataMsg env m g =
      some ({ m with
                ErrMsg := "", Loading := false,
                Table := { rows := sortRows (sortKey env) rows, cursor := 0 },
                Data := sortRows (sortKey env) rows }, []) := by
  simp only [handleDataMsg, h1, h2, h3, h4]

theorem scrub_handleEnterKey (env : Env) (lw : ListWidget) (tw : TableWidget)
    (err : String) (st : State) (b1 b2 : Bool) (sid : String) (dat : List (List String))
    (sd ed : String) :
    scrubLoading (handleEnterKey env ⟨lw, tw, err, st, b1, sid, dat, sd, ed⟩) =
    scrubLoading (handleEnterKey env ⟨lw, tw, err, st, b2, sid, dat, sd, ed⟩) := by
  cases st
  case SelectGame =>
    unfold handleEnterKey
    cases lw.items.get? lw.cursor <;> rfl
  case EnterStartDays => rfl
  case EnterEndDays => rfl
  case ShowTable =>
    unfold handleEnterKey
    cases tw.rows.get? tw.cursor with
    | none => rfl
    | some row =>
      cases row.get? 1 with
      | none => rfl
      | some c =>
        cases env.dialogDir with
        | none => rfl
        | some dir => by_cases hd : dir = "" <;> simp only [hd, if_pos, if_neg]
  case SelectSeries =>
    unfold handleEnterKey
    cases env.dialogDir with
    | none => rfl
    | some dir => by_cases hd : dir = "" <;> simp only [hd, if_pos, if_neg]
  case Downloading => rfl

theorem scrub_handleBackspaceKey (lw : ListWidget) (tw : TableWidget)
    (err : String) (st : State) (b1 b2 : Bool) (sid : String) (dat : List (List String))
    (sd ed : String) :
    scrubLoading (handleBackspaceKey ⟨lw, tw, err, st, b1, sid, dat, sd, ed⟩) =
    scrubLoading (handleBackspaceKey ⟨lw, tw, err, st, b2, sid, dat, sd, ed⟩) := by
  unfold handleBackspaceKey
  split_ifs <;> rfl

theorem scrub_handleDefaultKey (env : Env) (lw : ListWidget) (tw : TableWidget)
    (err : String) (st : State) (b1 b2 : Bool) (sid : String) (dat : List (List String))
    (sd ed : String) (k : String) :
    scrubLoading (handleDefaultKey env ⟨lw, tw, err, st, b1, sid, dat, sd, ed⟩ k) =
    scrubLoading (handleDefaultKey env ⟨lw, tw, err, st, b2, sid, dat, sd, ed⟩ k) := by
  cases hk : k.data with
  | nil => simp only [handleDefaultKey, hk]
  | cons c rest =>
    simp only [handleDefaultKey, hk]
    split_ifs <;> rfl

theorem digit_ne_char (c d : Char) (hc : c.isDigit = true) (hd : d.isDigit = false) : c ≠ d := by
  intro h
  rw [h] at hc
  rw [hc] at hd
  simp at hd

theorem digit_single_ne_q (c : Char) (hc : c.isDigit = true) : String.mk [c] ≠ "q" := by
  intro h
  have h2 : [c] = ['q'] := congrArg String.data h
  injection h2 with h3 _
  exact digit_ne_char c 'q' hc (by decide) h3

theorem digit_single_ne_e (c : Char) (hc : c.isDigit = true) : String.mk [c] ≠ "e" := by
  intro h
  have h2 : [c] = ['e'] := congrArg String.data h
  injection h2 with h3 _
  exact digit_ne_char c 'e' hc (by decide) h3

theorem single_ne_long (c : Char) (s : String) (hs : s.data.length ≠ 1) : String.mk [c] ≠ s := by
  intro h
  have h2 : [c] = s.data := congrArg String.data h
  apply hs
  rw [← h2]
  rfl

theorem handleKeyMsg_digit (env : Env) (hd : ∀ c, c.isDigit = true → env.isDig c = true)
    (m : Model) (c : Char) (hc : c.isDigit = true) :
    handleKeyMsg env m (String.mk [c]) =
      (if m.CurrentState = State.EnterStartDays then
        some ({ m with StartDays := m.StartDays ++ String.mk [c] }, [])
      else if m.CurrentState = State.EnterEndDays then
        some ({ m with EndDays := m.EndDays ++ String.mk [c] }, [])
      else some (m, [])) := by
  have hq : ¬(String.mk [c] = "q" ∨ String.mk [c] = "ctrl+c") := by
    rintro (h | h)
    · exact digit_single_ne_q c hc h
    · exact single_ne_long c "ctrl+c" (by decide) h
  have he : String.mk [c] ≠ "enter" := single_ne_long c "enter" (by decide)
  have hee : String.mk [c] ≠ "e" := digit_single_ne_e c hc
  have hb : String.mk [c] ≠ "backspace" := single_ne_long c "backspace" (by decide)
  have hud : ¬(String.mk [c] = "up" ∨ String.mk [c] = "down") := by
    rintro (h | h)
    · exact single_ne_long c "up" (by decide) h
    · exact single_ne_long c "down" (by decide) h
  rw [handleKeyMsg, if_neg hq, if_neg he, if_neg hee, if_neg hb, if_neg hud]
  simp only [handleDefaultKey]
  rw [hd c hc]
  simp

theorem handleKeyMsg_backspace (env : Env) (m : Model) :
    handleKeyMsg env m "backspace" =
      (if m.CurrentState = State.EnterStartDays then
        some ({ m with StartDays := dropLastStr m.StartDays }, [])
      else if m.CurrentState = State.EnterEndDays then
        some ({ m with EndDays := dropLastStr m.EndDays }, [])
      else some (m, [])) := by
  rw [handleKeyMsg, if_neg (by decide), if_neg (by decide), if_neg (by decide),
    if_pos rfl]
  rw [handleBackspaceKey]
  by_cases h1 : m.CurrentState = State.EnterStartDays
  · rw [if_pos h1]
    by_cases hl : 0 < m.StartDays.length
    · rw [if_pos ⟨h1, hl⟩]
    · rw [if_neg (fun hx => hl hx.2), if_neg (fun hx => by rw [h1] at hx; cases hx.1)]
      have hsd : m.StartDays = "" := by
        cases hsd : m.StartDays with
        | mk l =>
          cases l with
          | nil => rfl
          | cons a t => rw [hsd] at hl; exact absurd (by simp [String.length]) hl
      rw [hsd]
      show some (m, []) = some ({ m with StartDays := "" }, [])
      rw [show ({ m with StartDays := "" } : Model) = m from by
        cases m; simp only at hsd ⊢; rw [← hsd]]
  · rw [if_neg (fun hx => h1 hx.1), if_neg h1]
    by_cases h2 : m.CurrentState = State.EnterEndDays
    · rw [if_pos h2]
      by_cases hl : 0 < m.EndDays.length
      · rw [if_pos ⟨h2, hl⟩]
      · rw [if_neg (fun hx => hl hx.2)]
        have hsd : m.EndDays = "" := by
          cases hsd : m.EndDays with
          | mk l =>
            cases l with
            | nil => rfl
            | cons a t => rw [hsd] at hl; exact absurd (by simp [String.length]) hl
        rw [hsd]
        show some (m, []) = some ({ m with EndDays := "" }, [])
        rw [show ({ m with EndDays := "" } : Model) = m from by
          cases m; simp only at hsd ⊢; rw [← hsd]]
    · rw [if_neg (fun hx => h2 hx.1), if_neg h2]

theorem runKeys_dayEntry (env : Env) (hd : ∀ c, c.isDigit = true → env.isDig c = true) :
    ∀ (keys : List String) (m : Model),
      (∀ k ∈ keys, (∃ c, k = String.mk [c] ∧ c.isDigit = true) ∨ k = "backspace") →
      (m.CurrentState = State.EnterStartDays →
        ∃ m2, runKeys env m keys = some m2 ∧
          m2.StartDays = keys.foldl bufStep m.StartDays ∧ m2.EndDays = m.EndDays ∧
          m2.CurrentState = State.EnterStartDays) ∧
      (m.CurrentState = State.EnterEndDays →
        ∃ m2, runKeys env m keys = some m2 ∧
          m2.EndDays = keys.foldl bufStep m.EndDays ∧ m2.StartDays = m.StartDays ∧
          m2.CurrentState = State.EnterEndDays) := by
  intro keys
  induction keys with
  | nil =>
    intro m _
    exact ⟨fun h => ⟨m, rfl, rfl, rfl, h⟩, fun h => ⟨m, rfl, rfl, rfl, h⟩⟩
  | cons k ks ih =>
    intro m hks
    have hk := hks k (List.mem_cons_self k ks)
    have hrest : ∀ x ∈ ks, (∃ c, x = String.mk [c] ∧ c.isDigit = true) ∨ x = "backspace" :=
      fun x hx => hks x (List.mem_cons_of_mem k hx)
    constructor
    · intro hst
      rcases hk with ⟨c, hkc, hc⟩ | hkb
      · have hstep := handleKeyMsg_digit env hd m c hc
        rw [if_pos hst] at hstep
        have hknb : k ≠ "backspace" := by
          rw [hkc]; exact single_ne_long c "backspace" (by decide)
        rcases ((ih _ hrest).1 (show ({ m with StartDays := m.StartDays ++ String.mk [c] } : Model).CurrentState = State.EnterStartDays from hst)) with
          ⟨m2, hrun, hsd, hed, hst2⟩
        refine ⟨m2, ?_, ?_, hed, hst2⟩
        · rw [runKeys, hkc, hstep]
          exact hrun
        · rw [List.foldl_cons, hsd]
          have : bufStep m.StartDays k = m.StartDays ++ String.mk [c] := by
            rw [bufStep, if_neg hknb, hkc]
          rw [this]
      · have hstep := handleKeyMsg_backspace env m
        rw [if_pos hst] at hstep
        rcases ((ih _ hrest).1 (show ({ m with StartDays := dropLastStr m.StartDays } : Model).CurrentState = State.EnterStartDays from hst)) with
          ⟨m2, hrun, hsd, hed, hst2⟩
        refine ⟨m2, ?_, ?_, hed, hst2⟩
        · rw [runKeys, hkb, hstep]
          exact hrun
        · rw [List.foldl_cons, hsd]
          rw [show bufStep m.StartDays k = dropLastStr m.StartDays from by rw [hkb]; rfl]
    · intro hst
      rcases hk with ⟨c, hkc, hc⟩ | hkb
      · have hstep := handleKeyMsg_digit env hd m c hc
        rw [if_neg (by rw [hst]; intro hx; cases hx), if_pos hst] at hstep
        have hknb : k ≠ "backspace" := by
          rw [hkc]; exact single_ne_long c "backspace" (by decide)
        rcases ((ih _ hrest).2 (show ({ m with EndDays := m.EndDays ++ String.mk [c] } : Model).CurrentState = State.EnterEndDays from hst)) with
          ⟨m2, hrun, hed, hsd, hst2⟩
        refine ⟨m2, ?_, ?_, hsd, hst2⟩
        · rw [runKeys, hkc, hstep]
          exact hrun
        · rw [List.foldl_cons, hed]
          rw [show bufStep m.EndDays k = m.EndDays ++ String.mk [c] from by rw [bufStep, if_neg hknb, hkc]]
      · have hstep := handleKeyMsg_backspace env m
        rw [if_neg (by rw [hst]; intro hx; cases hx), if_pos hst] at hstep
        rcases ((ih _ hrest).2 (show ({ m with EndDays := dropLastStr m.EndDays } : Model).CurrentState = State.EnterEndDays from hst)) with
          ⟨m2, hrun, hed, hsd, hst2⟩
        refine ⟨m2, ?_, ?_, hsd, hst2⟩
        · rw [runKeys, hkb, hstep]
          exact hrun
        · rw [List.foldl_cons, hed]
          rw [show bufStep m.EndDays k = dropLastStr m.EndDays from by rw [hkb]; rfl]

theorem foldl_bufStep_digits :
    ∀ (keys : List String) (b : String),
      (∀ k ∈ keys, (∃ c, k = String.mk [c] ∧ c.isDigit = true) ∨ k = "backspace") →
      b.data.all Char.isDigit = true →
      (keys.foldl bufStep b).data.all Char.isDigit = true := by
  intro keys
  induction keys with
  | nil => intro b _ hb; exact hb
  | cons k ks ih =>
    intro b hks hb
    rw [List.foldl_cons]
    refine ih (bufStep b k) (fun x hx => hks x (List.mem_cons_of_mem k hx)) ?_
    rcases hks k (List.mem_cons_self k ks) with ⟨c, hkc, hc⟩ | hkb
    · have hknb : k ≠ "backspace" := by
        rw [hkc]; exact single_ne_long c "backspace" (by decide)
      rw [bufStep, if_neg hknb, hkc, String.data_append]
      rw [List.all_append, hb]
      simp [hc]
    · rw [hkb, bufStep, if_pos rfl]
      rw [show (dropLastStr b).data = b.data.dropLast from rfl]
      rw [List.all_eq_true] at hb ⊢
      intro x hx
      exact hb x (List.dropLast_sublist b.data |>.mem hx)

theorem buffers_unchanged_nondigit (env : Env) (m : Model) (k : String) (c : Char)
    (rest : List Char) (hk : k.data = c :: rest) (hc : env.isDig c = false)
    (hnb : k ≠ "backspace") :
    ∀ m2 cs, handleKeyMsg env m k = some (m2, cs) →
      m2.StartDays = m.StartDays ∧ m2.EndDays = m.EndDays := by
  intro m2 cs h
  rw [handleKeyMsg] at h
  by_cases h1 : k = "q" ∨ k = "ctrl+c"
  · rw [if_pos h1] at h
    cases h <;> exact ⟨rfl, rfl⟩
  rw [if_neg h1] at h
  by_cases h2 : k = "enter"
  · rw [if_pos h2] at h
    rw [handleEnterKey] at h
    repeat' split at h
    all_goals
      first
        | exact ⟨rfl, rfl⟩
        | (cases h <;> exact ⟨rfl, rfl⟩)
  rw [if_neg h2] at h
  by_cases h3 : k = "e"
  · rw [if_pos h3] at h
    cases h <;> exact ⟨rfl, rfl⟩
  rw [if_neg h3, if_neg hnb] at h
  by_cases h5 : k = "up" ∨ k = "down"
  · rw [if_pos h5] at h
    split_ifs at h <;> (cases h <;> exact ⟨rfl, rfl⟩)
  · rw [if_neg h5] at h
    rw [handleDefaultKey, hk] at h
    simp only [hc] at h
    rw [if_pos (by decide : ¬false = true)] at h
    cases h <;> exact ⟨rfl, rfl⟩

theorem goAtoi_nonneg (s : String) (h : s.data.all Char.isDigit = true) : 0 ≤ goAtoi s := by
  rw [goAtoi]
  cases hd : s.data with
  | nil => simp
  | cons c rest =>
    rw [hd] at h
    have hcd : c.isDigit = true := by
      rw [List.all_eq_true] at h
      exact h c (List.mem_cons_self c rest)
    have hcm : ¬ c = '-' := fun he => absurd hcd (by rw [he]; decide)
    have hcp : ¬ c = '+' := fun he => absurd hcd (by rw [he]; decide)
    have hcond : ¬((c :: rest) = [] ∨ ¬(c :: rest).all Char.isDigit = true) := by
      rw [h]
      simp
    simp only [if_neg hcm, if_neg hcp, if_neg hcond]
    split_ifs <;> first | omega | (exfalso; simp_all)

theorem goAtoi_empty : goAtoi "" = 0 := rfl

theorem goAtoi_nonnumeric (s : String) (hall : ¬ s.data.all Char.isDigit = true)
    (hm : s.data.head? ≠ some '-') (hp : s.data.head? ≠ some '+') : goAtoi s = 0 := by
  rw [goAtoi]
  cases hd : s.data with
  | nil => rfl
  | cons c rest =>
    rw [hd] at hall hm hp
    have hcm : ¬ c = '-' := fun he => hm (by rw [he]; rfl)
    have hcp : ¬ c = '+' := fun he => hp (by rw [he]; rfl)
    simp only [if_neg hcm, if_neg hcp]
    rw [if_pos (Or.inr hall)]

theorem durDays_exact (v : Int) (h0 : 0 ≤ v) (h1 : v * 86400000000000 ≤ 2 ^ 63 - 1) :
    durDays (-v) = -(v * 86400000000000) ∧ durDays v = v * 86400000000000 := by
  have hv : v ≤ 2 ^ 63 - 1 := by nlinarith
  have h24 : v * 24 ≤ 2 ^ 63 - 1 := by nlinarith
  have e1 : wrap64 (-v) = -v := wrap64_eq_self (-v) (by omega) (by omega)
  have e2 : wrap64 v = v := wrap64_eq_self v (by omega) (by omega)
  have e3 : wrap64 (-v * 24) = -v * 24 := wrap64_eq_self (-v * 24) (by omega) (by omega)
  have e4 : wrap64 (v * 24) = v * 24 := wrap64_eq_self (v * 24) (by omega) (by omega)
  have e5 : wrap64 (-v * 24 * hourNs) = -v * 24 * hourNs := by
    refine wrap64_eq_self _ ?_ ?_ <;> (rw [hourNs]; nlinarith)
  have e6 : wrap64 (v * 24 * hourNs) = v * 24 * hourNs := by
    refine wrap64_eq_self _ ?_ ?_ <;> (rw [hourNs]; nlinarith)
  constructor
  · rw [durDays, e1, e3, e5, hourNs]
    ring
  · rw [durDays, e2, e4, e6, hourNs]
    ring

theorem handleEnterKey_endDays (env : Env) (m : Model)
    (h : m.CurrentState = State.EnterEndDays) :
    handleEnterKey env m =
      some ({ m with Loading := true, CurrentState := State.ShowTable },
        [Cmd.clearScreen,
         Cmd.fetchData m.SelectedID (env.now1 + durDays (-(goAtoi m.StartDays)))
           (env.now2 + durDays (goAtoi m.EndDays)),
         Cmd.spinnerTick]) := by
  simp only [handleEnterKey, h]

theorem recordOfRow_take (r : List String) (h : 5 ≤ r.length) :
    recordOfRow r = some (r.take 5) := by
  match r with
  | [] => simp at h
  | [a] => simp at h
  | [a, b] => simp at h
  | [a, b, c] => simp at h
  | [a, b, c, d] => simp at h
  | a :: b :: c :: d :: e :: rest => rfl

theorem writeRecords_map (data : List (List String)) (h : ∀ r ∈ data, 5 ≤ r.length) :
    writeRecords data = some (data.map (fun r => r.take 5)) := by
  induction data with
  | nil => rfl
  | cons r rs ih =>
    rw [writeRecords, recordOfRow_take r (h r (List.mem_cons_self r rs)),
      ih (fun x hx => h x (List.mem_cons_of_mem r hx))]
    rfl

theorem downloadOptions_length (n : Nat) (b : Bool) :
    (downloadOptions n b).length = n + (if b then 1 else 0) := by
  cases b <;> simp [downloadOptions]

theorem downloadOptions_get_game (n : Nat) (b : Bool) (i : Nat) (hi : i < n) :
    (downloadOptions n b).get? ((if b then 1 else 0) + i) = some (gameOption i) := by
  cases b
  · simp [downloadOptions, List.getElem?_map, List.getElem?_range hi]
  · simp only [downloadOptions, if_pos trivial, List.singleton_append, Nat.add_comm 1 i,
      List.get?_eq_getElem?, List.getElem?_cons_succ, List.getElem?_map,
      List.getElem?_range hi]
    rfl

theorem handleEnterKey_showTable_none (env : Env) (m : Model)
    (h : m.CurrentState = State.ShowTable) (hrows : m.Table.rows = []) :
    handleEnterKey env m = none := by
  simp only [handleEnterKey, h, hrows, List.get?_nil]

theorem handleEnterKey_showTable_some (env : Env) (m : Model)
    (h : m.CurrentState = State.ShowTable) (row : List String)
    (hrow : m.Table.rows.get? m.Table.cursor = some row) (hw : 2 ≤ row.length) :
    (handleEnterKey env m).isSome = true := by
  have hcell : ∃ c, row.get? 1 = some c := by
    cases hc : row.get? 1 with
    | none => rw [List.get?_eq_none] at hc; omega
    | some c => exact ⟨c, rfl⟩
  rcases hcell with ⟨c, hc⟩
  simp only [handleEnterKey, h, hrow, hc]
  cases env.dialogDir with
  | none => rfl
  | some dir => by_cases hd : dir = "" <;> simp [hd]

/-- Claim C1, counterexample: with loading=true in Downloading, the
keystroke `enter` is not ignored — it flips loading off, moves the state to
ShowTable and dispatches a clear-screen command, so the model changes and a
command is dispatched. -/
theorem loading_keystroke_cex :
    handleKeyMsg env0 mDownloading "enter" =
      some ({ mDownloading with Loading := false, CurrentState := State.ShowTable },
        [Cmd.clearScreen]) ∧
    handleKeyMsg env0 mDownloading "enter" ≠ some (mDownloading, []) := by
  decide

/-- Claim C1, amended: the key dispatcher never consults the loading flag —
a keystroke delivered while loading=true is processed exactly as while
loading=false (same resulting fields apart from the loading flag itself,
and the same commands); keystrokes during loading are therefore not
ignored. -/
theorem handleKeyMsg_ignores_loading (env : Env) (m : Model) (k : String) (b1 b2 : Bool) :
    scrubLoading (handleKeyMsg env { m with Loading := b1 } k) =
    scrubLoading (handleKeyMsg env { m with Loading := b2 } k) := by
  cases m with
  | mk lw tw err st ld sid dat sd ed =>
    show scrubLoading (handleKeyMsg env ⟨lw, tw, err, st, b1, sid, dat, sd, ed⟩ k) =
      scrubLoading (handleKeyMsg env ⟨lw, tw, err, st, b2, sid, dat, sd, ed⟩ k)
    by_cases h1 : k = "q" ∨ k = "ctrl+c"
    · simp only [handleKeyMsg, if_pos h1]
      rfl
    · by_cases h2 : k = "enter"
      · simp only [handleKeyMsg, if_neg h1, if_pos h2]
        exact scrub_handleEnterKey env lw tw err st b1 b2 sid dat sd ed
      · by_cases h3 : k = "e"
        · simp only [handleKeyMsg, if_neg h1, if_neg h2, if_pos h3]
          rfl
        · by_cases h4 : k = "backspace"
          · simp only [handleKeyMsg, if_neg h1, if_neg h2, if_neg h3, if_pos h4]
            exact scrub_handleBackspaceKey lw tw err st b1 b2 sid dat sd ed
          · by_cases h5 : k = "up" ∨ k = "down"
            · simp only [handleKeyMsg, if_neg h1, if_neg h2, if_neg h3, if_neg h4, if_pos h5]
              cases st <;> rfl
            · simp only [handleKeyMsg, if_neg h1, if_neg h2, if_neg h3, if_neg h4, if_neg h5]
              exact scrub_handleDefaultKey env lw tw err st b1 b2 sid dat sd ed k

/-- Claim C2, counterexample: delivering the fetch-error string to a
loading ShowTable model sets the error message but leaves loading true, not
false as claimed. -/
theorem fetch_error_loading_cex :
    Update env0 mFetching (Msg.strMsg "network error") =
      some ({ mFetching with ErrMsg := "network error" }, []) ∧
    mFetching.Loading = true ∧
    ({ mFetching with ErrMsg := "network error" } : Model).Loading ≠ false := by
  decide

/-- Claim C2, amended: for every model in the ShowTable state with
loading=true, delivering an async fetch-error result (other than the
literal download-completion sentinel) sets error_message to that error and
leaves loading unchanged — still true. -/
theorem fetch_error_sets_error_only (env : Env) (m : Model) (e : String)
    (hst : m.CurrentState = State.ShowTable) (hld : m.Loading = true)
    (hne : e ≠ "Download complete") :
    Update env m (Msg.strMsg e) = some ({ m with ErrMsg := e }, []) ∧
    ({ m with ErrMsg := e } : Model).Loading = true := by
  constructor
  · simp only [Update, if_neg hne]
  · show m.Loading = true
    exact hld

/-- Witness for the amended C2 statement at a concrete loading model and
error string. -/
theorem fetch_error_sets_error_only_witness :
    Update env0 mFetching (Msg.strMsg "boom") = some ({ mFetching with ErrMsg := "boom" }, []) ∧
    ({ mFetching with ErrMsg := "boom" } : Model).Loading = true :=
  fetch_error_sets_error_only env0 mFetching "boom" rfl rfl (by decide)

/-- Claim C3: the download command discards the gateway's error — whatever
error the download reports, the delivered message is the literal completion
string, so the subsequent update returns to ShowTable with loading=false
and the error message untouched (the download error is never surfaced). -/
theorem download_error_discarded (e : String) (env : Env) (m : Model) :
    downloadDataCmdMsg (Except.error e) = Msg.strMsg "Download complete" ∧
    Update env m (downloadDataCmdMsg (Except.error e)) =
      some ({ m with CurrentState := State.ShowTable, Loading := false },
        [Cmd.clearScreen, Cmd.spinnerTick]) ∧
    ({ m with CurrentState := State.ShowTable, Loading := false } : Model).ErrMsg = m.ErrMsg := by
  refine ⟨rfl, ?_, rfl⟩
  simp only [Update, downloadDataCmdMsg]
  rw [if_pos trivial]

/-- Claim C4, counterexample: `time.Parse(RFC3339)` accepts year-0000
timestamps that lie strictly before the zero `time.Time` used as the failed
parse's fallback, so at this gateway result a parsable row (key
-31622400000000000 ns, one leap year before the zero value) sorts ahead of
the unparsable-timestamp row — unparsable timestamps do not sort first. -/
theorem transformer_unparsable_not_first_cex :
    (handleDataMsg envNeg mFetching gCex).map (fun p => p.1.Data) =
      some [["0000-01-01T00:00:00Z", "sid0", "Cup", "Epsilon", "Zeta"],
            ["soon", "sid3", "Cup", "Gamma", "Delta"]] ∧
    envNeg.parse "soon" = none ∧
    envNeg.parse "0000-01-01T00:00:00Z" = some (-31622400000000000) ∧
    (-31622400000000000 : Int) < 0 := by
  decide

/-- Claim C4, amended: for a well-formed gateway result with N edges of
which M have at least two participants, the transformer produces exactly M
rows, sorted non-decreasing by the parsed start-time key (zero-value
fallback for an unparsable timestamp, hence deterministic), and every row
preceding an unparsable-timestamp row has a key at or before the zero
value — so unparsable timestamps sort first except for timestamps parsing
strictly before the zero value (year-0000 RFC3339 timestamps), which sort
ahead of them. -/
theorem transformer_skips_and_sorts (env : Env) (m : Model) (g d s : List (String × GVal))
    (edges : List GVal)
    (h1 : glookupObj g "data" = some d) (h2 : glookupObj d "allSeries" = some s)
    (h3 : (glookup s "edges").bind asArr = some edges)
    (hwf : ∀ e ∈ edges, (rowOfEdge e).isSome = true) :
    ∃ m2, handleDataMsg env m g = some (m2, []) ∧
      m2.Data.length = edges.countP edgeHasTwoTeams ∧
      m2.Data.Pairwise (fun a b => sortKey env a ≤ sortKey env b) ∧
      (∀ i j : Fin m2.Data.length, (i : Nat) ≤ (j : Nat) →
        env.parse ((m2.Data.get j).getD 0 "") = none → sortKey env (m2.Data.get i) ≤ 0) := by
  rcases buildRows_of_wf edges hwf with ⟨rows, hb, hlen, _⟩
  refine ⟨_, handleDataMsg_success env m g d s edges rows h1 h2 h3 hb, ?_, ?_, ?_⟩
  · show (sortRows (sortKey env) rows).length = _
    rw [sortRows_length, hlen]
  · exact sortRows_pairwise (sortKey env) rows
  · intro i j hij hpj
    have hkeyj : sortKey env ((sortRows (sortKey env) rows).get j) = 0 := by
      rw [sortKey, hpj]
    rcases lt_or_eq_of_le hij with hlt | heq
    · have hp := List.pairwise_iff_get.mp (sortRows_pairwise (sortKey env) rows) i j hlt
      rw [hkeyj] at hp
      exact hp
    · rw [Fin.ext heq, hkeyj]

/-- Witness for the amended C4 at a concrete gateway result: three
well-formed edges (one with a single participant, one with an unparsable
start time). -/
theorem transformer_skips_and_sorts_witness :
    ∃ m2, handleDataMsg env0 mFetching gWitness = some (m2, []) ∧
      m2.Data.length = edgesW.countP edgeHasTwoTeams ∧
      m2.Data.Pairwise (fun a b => sortKey env0 a ≤ sortKey env0 b) ∧
      (∀ i j : Fin m2.Data.length, (i : Nat) ≤ (j : Nat) →
        env0.parse ((m2.Data.get j).getD 0 "") = none → sortKey env0 (m2.Data.get i) ≤ 0) :=
  transformer_skips_and_sorts env0 mFetching gWitness dataW seriesW edgesW rfl rfl rfl
    (by decide)

/-- Claim C5: a gateway result failing the data, series or edge extraction
is reported with the distinct errors "No data found" / "No series found" /
"No edges found", checked in that order, and in each failure case the
model's table and rows are left unchanged. -/
theorem transformer_missing_levels (env : Env) (m : Model) (g : List (String × GVal)) :
    (glookupObj g "data" = none →
      handleDataMsg env m g = some ({ m with ErrMsg := "No data found", Loading := false }, [])) ∧
    (∀ d, glookupObj g "data" = some d → glookupObj d "allSeries" = none →
      handleDataMsg env m g = some ({ m with ErrMsg := "No series found", Loading := false }, [])) ∧
    (∀ d s, glookupObj g "data" = some d → glookupObj d "allSeries" = some s →
        (glookup s "edges").bind asArr = none →
      handleDataMsg env m g = some ({ m with ErrMsg := "No edges found", Loading := false }, [])) ∧
    (("No data found" : String) ≠ "No series found" ∧
     ("No data found" : String) ≠ "No edges found" ∧
     ("No series found" : String) ≠ "No edges found") ∧
    (∀ e : String, ({ m with ErrMsg := e, Loading := false } : Model).Table = m.Table ∧
      ({ m with ErrMsg := e, Loading := false } : Model).Data = m.Data) := by
  refine ⟨?_, ?_, ?_, by decide, fun e => ⟨rfl, rfl⟩⟩
  · intro h1
    simp only [handleDataMsg, h1]
  · intro d h1 h2
    simp only [handleDataMsg, h1, h2]
  · intro d s h1 h2 h3
    simp only [handleDataMsg, h1, h2, h3]

/-- Witness for C5 at three concrete malformed results, one per missing
level. -/
theorem transformer_missing_levels_witness :
    handleDataMsg env0 mFetching [] =
      some ({ mFetching with ErrMsg := "No data found", Loading := false }, []) ∧
    handleDataMsg env0 mFetching [("data", GVal.obj [])] =
      some ({ mFetching with ErrMsg := "No series found", Loading := false }, []) ∧
    handleDataMsg env0 mFetching [("data", GVal.obj [("allSeries", GVal.obj [])])] =
      some ({ mFetching with ErrMsg := "No edges found", Loading := false }, []) :=
  ⟨(transformer_missing_levels env0 mFetching []).1 rfl,
   (transformer_missing_levels env0 mFetching [("data", GVal.obj [])]).2.1 [] rfl rfl,
   (transformer_missing_levels env0 mFetching
     [("data", GVal.obj [("allSeries", GVal.obj [])])]).2.2.1 [("allSeries", GVal.obj [])] [] rfl rfl rfl⟩

/-- Claim C6: in a day-entry state, a run of digit keystrokes and
backspaces leaves exactly the typed digits with each backspace dropping the
last character (no-op on empty), keeps the buffer all-digits, leaves the
other buffer and the state untouched; and any key that is not backspace and
whose leading character is not a digit leaves both buffers unchanged. -/
theorem day_entry_buffer_behavior :
    (∀ env : Env, (∀ c, c.isDigit = true → env.isDig c = true) →
      ∀ (m : Model) (keys : List String),
        (∀ k ∈ keys, (∃ c, k = String.mk [c] ∧ c.isDigit = true) ∨ k = "backspace") →
        (m.CurrentState = State.EnterStartDays →
          ∃ m2, runKeys env m keys = some m2 ∧
            m2.StartDays = keys.foldl bufStep m.StartDays ∧
            m2.EndDays = m.EndDays ∧ m2.CurrentState = State.EnterStartDays ∧
            (m.StartDays.data.all Char.isDigit = true →
              m2.StartDays.data.all Char.isDigit = true)) ∧
        (m.CurrentState = State.EnterEndDays →
          ∃ m2, runKeys env m keys = some m2 ∧
            m2.EndDays = keys.foldl bufStep m.EndDays ∧
            m2.StartDays = m.StartDays ∧ m2.CurrentState = State.EnterEndDays ∧
            (m.EndDays.data.all Char.isDigit = true →
              m2.EndDays.data.all Char.isDigit = true))) ∧
    (∀ (env : Env) (m : Model) (k : String) (c : Char) (rest : List Char),
      k.data = c :: rest → env.isDig c = false → k ≠ "backspace" →
      ∀ m2 cs, handleKeyMsg env m k = some (m2, cs) →
        m2.StartDays = m.StartDays ∧ m2.EndDays = m.EndDays) := by
  constructor
  · intro env hd m keys halpha
    constructor
    · intro hst
      rcases (runKeys_dayEntry env hd keys m halpha).1 hst with ⟨m2, hrun, hsd, hed, hst2⟩
      refine ⟨m2, hrun, hsd, hed, hst2, fun hpure => ?_⟩
      rw [hsd]
      exact foldl_bufStep_digits keys m.StartDays halpha hpure
    · intro hst
      rcases (runKeys_dayEntry env hd keys m halpha).2 hst with ⟨m2, hrun, hed, hsd, hst2⟩
      refine ⟨m2, hrun, hed, hsd, hst2, fun hpure => ?_⟩
      rw [hed]
      exact foldl_bufStep_digits keys m.EndDays halpha hpure
  · intro env m k c rest hk hc hnb
    exact buffers_unchanged_nondigit env m k c rest hk hc hnb

/-- Witness for C6: typing 1, 2, backspace, 3 from an empty start-days
buffer, and the non-digit key "x" leaving the buffers of the same model
unchanged. -/
theorem day_entry_buffer_behavior_witness :
    (∃ m2, runKeys env0 mStartEntry ["1", "2", "backspace", "3"] = some m2 ∧
      m2.StartDays = ["1", "2", "backspace", "3"].foldl bufStep mStartEntry.StartDays ∧
      m2.EndDays = mStartEntry.EndDays ∧ m2.CurrentState = State.EnterStartDays ∧
      (mStartEntry.StartDays.data.all Char.isDigit = true →
        m2.StartDays.data.all Char.isDigit = true)) ∧
    (mStartEntry.StartDays = mStartEntry.StartDays ∧
      mStartEntry.EndDays = mStartEntry.EndDays) := by
  constructor
  · refine (day_entry_buffer_behavior.1 env0 (fun c h => h) mStartEntry
      ["1", "2", "backspace", "3"] ?_).1 rfl
    intro k hk
    simp only [List.mem_cons, List.not_mem_nil, or_false] at hk
    rcases hk with rfl | rfl | rfl | rfl
    · exact Or.inl ⟨'1', rfl, by decide⟩
    · exact Or.inl ⟨'2', rfl, by decide⟩
    · exact Or.inr rfl
    · exact Or.inl ⟨'3', rfl, by decide⟩
  · exact day_entry_buffer_behavior.2 env0 mStartEntry "x" 'x' [] rfl (by decide) (by decide)
      mStartEntry [] (by decide)

/-- Claim C7: confirming in EnterEndDays always succeeds — both day inputs
parse with the zero default (empty and non-numeric inputs give 0, digit
inputs give a non-negative value), the model enters ShowTable with
loading=true, and the dispatched command batch contains exactly one fetch
for the selected title, with start time now − start_days·24h and end time
now + end_days·24h (exact whenever the day count does not overflow the
64-bit nanosecond duration). -/
theorem confirm_endDays_fetch (env : Env) (m : Model)
    (h : m.CurrentState = State.EnterEndDays) :
    handleEnterKey env m =
      some ({ m with Loading := true, CurrentState := State.ShowTable },
        [Cmd.clearScreen,
         Cmd.fetchData m.SelectedID (env.now1 + durDays (-(goAtoi m.StartDays)))
           (env.now2 + durDays (goAtoi m.EndDays)),
         Cmd.spinnerTick]) ∧
    goAtoi "" = 0 ∧
    (∀ s : String, ¬ s.data.all Char.isDigit = true → s.data.head? ≠ some '-' →
      s.data.head? ≠ some '+' → goAtoi s = 0) ∧
    (m.StartDays.data.all Char.isDigit = true → 0 ≤ goAtoi m.StartDays) ∧
    (m.EndDays.data.all Char.isDigit = true → 0 ≤ goAtoi m.EndDays) ∧
    (goAtoi m.StartDays * 86400000000000 ≤ 2 ^ 63 - 1 → 0 ≤ goAtoi m.StartDays →
      env.now1 + durDays (-(goAtoi m.StartDays)) =
        env.now1 - goAtoi m.StartDays * 86400000000000) ∧
    (goAtoi m.EndDays * 86400000000000 ≤ 2 ^ 63 - 1 → 0 ≤ goAtoi m.EndDays →
      env.now2 + durDays (goAtoi m.EndDays) =
        env.now2 + goAtoi m.EndDays * 86400000000000) ∧
    [Cmd.clearScreen,
     Cmd.fetchData m.SelectedID (env.now1 + durDays (-(goAtoi m.StartDays)))
       (env.now2 + durDays (goAtoi m.EndDays)),
     Cmd.spinnerTick].countP isFetchCmd = 1 := by
  refine ⟨handleEnterKey_endDays env m h, goAtoi_empty,
    fun s hs hm2 hp2 => goAtoi_nonnumeric s hs hm2 hp2,
    fun hds => goAtoi_nonneg _ hds, fun hds => goAtoi_nonneg _ hds, ?_, ?_, rfl⟩
  · intro hr h0
    rw [(durDays_exact _ h0 hr).1]
    ring
  · intro hr h0
    rw [(durDays_exact _ h0 hr).2]

/-- Witness for C7 at the scenario inputs 10 and 1. -/
theorem confirm_endDays_fetch_witness :
    handleEnterKey env0 mEndEntry =
      some ({ mEndEntry with Loading := true, CurrentState := State.ShowTable },
        [Cmd.clearScreen,
         Cmd.fetchData mEndEntry.SelectedID
           (env0.now1 + durDays (-(goAtoi mEndEntry.StartDays)))
           (env0.now2 + durDays (goAtoi mEndEntry.EndDays)),
         Cmd.spinnerTick]) ∧
    goAtoi "" = 0 ∧
    (∀ s : String, ¬ s.data.all Char.isDigit = true → s.data.head? ≠ some '-' →
      s.data.head? ≠ some '+' → goAtoi s = 0) ∧
    (mEndEntry.StartDays.data.all Char.isDigit = true → 0 ≤ goAtoi mEndEntry.StartDays) ∧
    (mEndEntry.EndDays.data.all Char.isDigit = true → 0 ≤ goAtoi mEndEntry.EndDays) ∧
    (goAtoi mEndEntry.StartDays * 86400000000000 ≤ 2 ^ 63 - 1 →
      0 ≤ goAtoi mEndEntry.StartDays →
      env0.now1 + durDays (-(goAtoi mEndEntry.StartDays)) =
        env0.now1 - goAtoi mEndEntry.StartDays * 86400000000000) ∧
    (goAtoi mEndEntry.EndDays * 86400000000000 ≤ 2 ^ 63 - 1 → 0 ≤ goAtoi mEndEntry.EndDays →
      env0.now2 + durDays (goAtoi mEndEntry.EndDays) =
        env0.now2 + goAtoi mEndEntry.EndDays * 86400000000000) ∧
    [Cmd.clearScreen,
     Cmd.fetchData mEndEntry.SelectedID
       (env0.now1 + durDays (-(goAtoi mEndEntry.StartDays)))
       (env0.now2 + durDays (goAtoi mEndEntry.EndDays)),
     Cmd.spinnerTick].countP isFetchCmd = 1 :=
  confirm_endDays_fetch env0 mEndEntry rfl

/-- Claim C8: the export writes exactly one header record — Start Time,
Serie ID, Tournament, Blue Team, Red Team — followed by one record per
input row, in input order with no re-sorting. -/
theorem export_writes_header_and_rows (data : List (List String))
    (h : ∀ r ∈ data, 5 ≤ r.length) :
    ExportData data = some (csvHeaders :: data.map (fun r => r.take 5)) ∧
    csvHeaders = ["Start Time", "Serie ID", "Tournament", "Blue Team", "Red Team"] ∧
    (∀ out, ExportData data = some out → out.length = data.length + 1) := by
  have hw : ExportData data = some (csvHeaders :: data.map (fun r => r.take 5)) := by
    rw [ExportData, writeRecords_map data h]
    rfl
  refine ⟨hw, rfl, ?_⟩
  intro out hout
  rw [hw] at hout
  injection hout with hout
  rw [← hout]
  simp

/-- Witness for C8 at two concrete five-column rows. -/
theorem export_writes_header_and_rows_witness :
    ExportData [["t1", "s1", "c1", "a1", "b1"], ["t2", "s2", "c2", "a2", "b2"]] =
      some (csvHeaders ::
        [["t1", "s1", "c1", "a1", "b1"], ["t2", "s2", "c2", "a2", "b2"]].map
          (fun r => r.take 5)) ∧
    csvHeaders = ["Start Time", "Serie ID", "Tournament", "Blue Team", "Red Team"] ∧
    (∀ out, ExportData [["t1", "s1", "c1", "a1", "b1"], ["t2", "s2", "c2", "a2", "b2"]] =
      some out → out.length = [["t1", "s1", "c1", "a1", "b1"],
        ["t2", "s2", "c2", "a2", "b2"]].length + 1) :=
  export_writes_header_and_rows
    [["t1", "s1", "c1", "a1", "b1"], ["t2", "s2", "c2", "a2", "b2"]] (by decide)

/-- Claim C9 (modelled from the spec, see `confirmShowTableLoaded`):
confirming in the loaded ShowTable state records the selected row's series
id, advances to SelectDownloadOption, and populates the option list from
the list-files result — the archive option is present exactly when the
manifest entry exists, followed by one 1-indexed "Download Game N" option
per detected replay file. -/
theorem confirm_populates_download_options (rows : List (List String)) (cursor : Nat)
    (files : List GameFile) (row : List String) (sid : String)
    (h1 : rows.get? cursor = some row) (h2 : row.get? 1 = some sid) :
    ∃ r, confirmShowTableLoaded rows cursor files =
        some (r, SpecScreen.selectDownloadOption) ∧
      r.selectedSeriesId = sid ∧
      r.options.length = countRofl files + (if hasJSONFile files then 1 else 0) ∧
      (r.options.head? = some archiveOption ↔ hasJSONFile files = true) ∧
      ∀ i, i < countRofl files →
        r.options.get? ((if hasJSONFile files then 1 else 0) + i) = some (gameOption i) ∧
        (gameOption i).TitleText = "Download Game " ++ toString (i + 1) := by
  refine ⟨{ selectedSeriesId := sid,
            options := downloadOptions (countRofl files) (hasJSONFile files) },
    ?_, rfl, downloadOptions_length _ _, ?_, ?_⟩
  · simp only [confirmShowTableLoaded, h1, h2]
  · constructor
    · intro hh
      cases hb : hasJSONFile files
      · exfalso
        rw [hb] at hh
        cases hn : countRofl files with
        | zero =>
          rw [hn] at hh
          simp [downloadOptions] at hh
        | succ k =>
          rw [hn] at hh
          rw [show downloadOptions (k + 1) false = (List.range (k + 1)).map gameOption from
            by simp [downloadOptions]] at hh
          rw [List.range_succ_eq_map] at hh
          exact absurd (Option.some.inj hh) (by decide)
      · rfl
    · intro hb
      show (downloadOptions (countRofl files) (hasJSONFile files)).head? = some archiveOption
      rw [hb]
      simp [downloadOptions]
  · intro i hi
    exact ⟨downloadOptions_get_game _ _ i hi, rfl⟩

/-- Witness for C9 at the scenario list-files result — two replay files
plus an archive manifest — showing the option list has 2 + 1 = 3 entries. -/
theorem confirm_populates_download_options_witness :
    (∃ r, confirmShowTableLoaded [["2024-05-10T00:00:00Z", "s1", "Cup", "Alpha", "Beta"]] 0
        wfiles = some (r, SpecScreen.selectDownloadOption) ∧
      r.selectedSeriesId = "s1" ∧
      r.options.length = countRofl wfiles + (if hasJSONFile wfiles then 1 else 0) ∧
      (r.options.head? = some archiveOption ↔ hasJSONFile wfiles = true) ∧
      ∀ i, i < countRofl wfiles →
        r.options.get? ((if hasJSONFile wfiles then 1 else 0) + i) = some (gameOption i) ∧
        (gameOption i).TitleText = "Download Game " ++ toString (i + 1)) ∧
    countRofl wfiles = 2 ∧ hasJSONFile wfiles = true :=
  ⟨confirm_populates_download_options
      [["2024-05-10T00:00:00Z", "s1", "Cup", "Alpha", "Beta"]] 0 wfiles
      ["2024-05-10T00:00:00Z", "s1", "Cup", "Alpha", "Beta"] "s1" rfl rfl,
   by decide, rfl⟩

theorem buildRows_widths :
    ∀ (edges : List GVal) (rows : List (List String)),
      buildRows edges = some rows → ∀ r ∈ rows, r.length = 5 := by
  intro edges
  induction edges with
  | nil =>
    intro rows h r hr
    cases h
    simp at hr
  | cons e es ih =>
    intro rows h r hr
    rw [buildRows] at h
    cases hre : rowOfEdge e <;> rw [hre] at h
    · cases h
    case some o =>
      cases o with
      | none => exact ih rows h r hr
      | some r0 =>
        cases hb : buildRows es <;> rw [hb] at h
        · cases h
        case some rs =>
          cases h
          rcases List.mem_cons.mp hr with hr | hr
          · exact hr ▸ (rowOfEdge_row e r0 hre).2
          · exact ih rs hb r hr

/-- Claim C10: the ShowTable confirm handler reads column 1 of the selected
row with no emptiness check — with an empty row sequence the access is out
of bounds (the handler panics, i.e. returns none), while a selected row of
width at least two (which every row the transformer builds has, being
five-column) makes the handler total. -/
theorem showTable_confirm_requires_rows (env : Env) (m : Model)
    (h : m.CurrentState = State.ShowTable) :
    (m.Table.rows = [] → handleEnterKey env m = none) ∧
    (∀ row, m.Table.rows.get? m.Table.cursor = some row → 2 ≤ row.length →
      (handleEnterKey env m).isSome = true) ∧
    (∀ (env2 : Env) (m0 : Model) (g : List (String × GVal)) (m1 : Model) (cs : List Cmd),
      handleDataMsg env2 m0 g = some (m1, cs) → m1.ErrMsg = "" →
      ∀ r ∈ m1.Table.rows, 2 ≤ r.length) := by
  refine ⟨fun hrows => handleEnterKey_showTable_none env m h hrows,
    fun row hrow hw => handleEnterKey_showTable_some env m h row hrow hw, ?_⟩
  intro env2 m0 g m1 cs hmsg hErr r hr
  rw [handleDataMsg] at hmsg
  split at hmsg
  · cases hmsg
    simp at hErr
  next data hd1 =>
    split at hmsg
    · cases hmsg
      simp at hErr
    next series hd2 =>
      split at hmsg
      · cases hmsg
        simp at hErr
      next edges hd3 =>
        split at hmsg
        · cases hmsg
        next rows hd4 =>
          cases hmsg
          have hmem : r ∈ rows := (mem_sortRows (sortKey env2) r rows).mp hr
          have hw5 := buildRows_widths edges rows hd4 r hmem
          omega

/-- Witness for C10: an empty loaded table makes confirm panic (none), a
one-row five-column table makes it succeed. -/
theorem showTable_confirm_requires_rows_witness :
    handleEnterKey env0 mShowEmpty = none ∧
    (handleEnterKey env0 mShowLoaded).isSome = true :=
  ⟨(showTable_confirm_requires_rows env0 mShowEmpty rfl).1 rfl,
   (showTable_confirm_requires_rows env0 mShowLoaded rfl).2.1
     ["2024-05-10T00:00:00Z", "s1", "Cup", "Alpha", "Beta"] rfl (by decide)⟩
